import Mathlib

/-!
Shallow embedding of the demo web server (server.js): user registration and
login against a JSON-array user store, avatar lookup proxying, and the
append-only survey-response and login-audit collections.

Side effects are made explicit: the current time is a parameter, the bcrypt
hash and verify primitives are function parameters, file contents are values
(`none` models a missing backing file), and the two outbound HTTP calls of the
avatar proxy are passed in as their observed outcomes.
-/

namespace RobuxFree

/-- JS String.prototype.trim: strips whitespace from both ends. Defined
structurally over the character list so that it evaluates in the kernel. -/
def jsTrim (s : String) : String :=
  ⟨((s.data.dropWhile Char.isWhitespace).reverse.dropWhile Char.isWhitespace).reverse⟩

/-- JS String.prototype.toLowerCase, on the ASCII range the code relies on.
Defined structurally over the character list. -/
def jsToLower (s : String) : String :=
  ⟨s.data.map Char.toLower⟩

/-- A persisted user record, as created by the register endpoint. -/
structure User where
  id : Nat
  username : String
  passwordHash : String
  avatarUrl : String
  createdAt : String
deriving Repr, DecidableEq

/-- One character of the username charset class of the validation regex
pattern A-Za-z0-9 underscore hyphen. -/
def usernameCharOk (c : Char) : Bool :=
  c.isAlphanum || c == '_' || c == '-'

/-- The whole-string test of the validation regex: 2 to 32 characters, all in
the allowed class. -/
def usernameOk (s : String) : Bool :=
  2 ≤ s.length && s.length ≤ 32 && s.data.all usernameCharOk

/-- POST /api/register. `hash` stands for bcrypt.hash with cost 10, `now` for
Date.now(), `nowIso` for the ISO timestamp of the same instant. Errors are
(status, message) pairs; success returns the new users array and the new
record (the HTTP response exposes its username and id, and the session is
bound to its id). -/
def register (hash : String → String) (now : Nat) (nowIso : String)
    (users : List User) (username password : String) :
    Except (Nat × String) (List User × User) :=
  let un := jsTrim username
  if un.length < 2 then .error (400, "Nombre de usuario invalido")
  else if password.length < 6 then
    .error (400, "La contrasena debe tener al menos 6 caracteres")
  else if ¬ usernameOk un then
    .error (400, "Usuario solo letras/numeros/_- permitidos")
  else if users.any (fun u => jsToLower u.username == jsToLower un) then
    .error (409, "Usuario ya existe")
  else
    let newUser : User := ⟨now, un, hash password, "", nowIso⟩
    .ok (users ++ [newUser], newUser)

/-- POST /api/login. `verify` stands for bcrypt.compare. On success the found
user record is returned (the HTTP response exposes its username, id and
avatarUrl, and the session is bound to its id). -/
def login (verify : String → String → Bool) (users : List User)
    (username password : String) : Except (Nat × String) User :=
  let un := jsTrim username
  if un = "" ∨ password = "" then .error (400, "Credenciales incompletas")
  else
    match users.find? (fun u => jsToLower u.username == jsToLower un) with
    | none => .error (401, "Usuario/contrasena invalidos")
    | some user =>
      if verify password user.passwordHash then .ok user
      else .error (401, "Usuario/contrasena invalidos")

/-- Array.prototype.findIndex: index of the first element satisfying `p`
(none models the -1 return). -/
def findIndex (p : α → Bool) : List α → Option Nat
  | [] => none
  | a :: as => if p a then some 0 else (findIndex p as).map (· + 1)

/-- POST /api/me/avatar. The session user id is `none` when no session is
established. Overwrites only the avatarUrl field of the matched record and
persists the whole array. -/
def updateAvatar (sessionUserId : Option Nat) (users : List User)
    (avatarUrl : Option String) : Except (Nat × String) (List User) :=
  match sessionUserId with
  | none => .error (401, "No autenticado")
  | some uid =>
    match findIndex (fun u => u.id == uid) users with
    | none => .error (404, "Usuario no encontrado")
    | some idx =>
      match users[idx]? with
      | none => .error (404, "Usuario no encontrado")
      | some u => .ok (users.set idx { u with avatarUrl := avatarUrl.getD "" })

/-- An upstream HTTP response: `ok` is res.ok, `body` the parsed JSON payload
projected to the field the handler reads. -/
structure FetchResp (α : Type) where
  ok : Bool
  body : α
deriving Repr, DecidableEq

/-- Outcome of one fetch call: transport failure (the promise rejects, caught
as a 500) or a response. -/
inductive FetchOutcome (α : Type) where
  | netFail
  | resp (r : FetchResp α)
deriving Repr, DecidableEq

/-- GET /api/avatar/:username. The first call resolves the username to an id
(`body` is the Id field, `none` when the JSON is null or carries no Id; the
value 0 is falsy in the source check). The second call fetches the thumbnail
(`body` is the imageUrl field, if present). The Bool in the result records
whether the second outbound call was attempted. -/
def resolveAvatar (username : String)
    (lookupCall : FetchOutcome (Option Nat))
    (thumbCall : FetchOutcome (Option String)) :
    Except (Nat × String) String × Bool :=
  let un := jsTrim username
  if un = "" then (.error (400, "Falta username"), false)
  else
    match lookupCall with
    | .netFail => (.error (500, "Error interno"), false)
    | .resp r =>
      if ¬ r.ok then (.error (502, "Error consultando Roblox"), false)
      else
        match r.body with
        | none => (.error (404, "Usuario Roblox no encontrado"), false)
        | some uid =>
          if uid = 0 then (.error (404, "Usuario Roblox no encontrado"), false)
          else
            match thumbCall with
            | .netFail => (.error (500, "Error interno"), true)
            | .resp r2 =>
              if ¬ r2.ok then (.error (502, "No se pudo obtener miniatura"), true)
              else
                let imageUrl := r2.body.getD ""
                if imageUrl = "" then (.error (404, "Sin imagen"), true)
                else (.ok imageUrl, true)

/-- A free-form JSON object payload, projected to its string-valued fields. -/
abbrev Obj := List (String × String)

/-- JS property write `o[k] = v`: replaces the value of an existing key in
place, otherwise appends the binding. -/
def setField (k v : String) (o : Obj) : Obj :=
  if o.any (fun p => p.1 == k) then o.map (fun p => if p.1 == k then (k, v) else p)
  else o ++ [(k, v)]

/-- POST /api/saveResponse: stamps the body with the server time and appends
it to the responses array. -/
def saveResponse (nowIso : String) (body : Obj) (arr : List Obj) : List Obj :=
  arr ++ [setField "timestamp" nowIso body]

/-- A sequence of saveResponse requests, each a (server time, body) pair, in
submission order. -/
def saveResponseMany (items : List (String × Obj)) (arr : List Obj) : List Obj :=
  items.foldl (fun a it => saveResponse it.1 it.2 a) arr

/-- POST /api/saveLogin: builds a fresh audit entry from only the username and
avatarUrl fields of the body plus the server time, and appends it. -/
def saveLogin (nowIso : String) (body : Obj) (logins : List Obj) : List Obj :=
  let entry : Obj :=
    [("username", jsTrim ((body.lookup "username").getD "")),
     ("avatarUrl", (body.lookup "avatarUrl").getD ""),
     ("timestamp", nowIso)]
  logins ++ [entry]

/-- A backing file for one collection: `none` when absent, otherwise the
parsed JSON array it holds. -/
abbrev FileState (α : Type) := Option (List α)

/-- ensureDataFiles, restricted to one file: creates it with an empty array
when absent. -/
def ensureDataFile (f : FileState α) : FileState α :=
  match f with
  | some l => some l
  | none => some []

/-- readJson: reading a present file yields its records; a missing file makes
fs.readFile reject (surfaced as an internal error). -/
def readJson (f : FileState α) : Except (Nat × String) (List α) :=
  match f with
  | some l => .ok l
  | none => .error (500, "ENOENT")

/-- The Record Store load operation of the spec: startup ensureDataFiles
followed by readJson. Returns the resulting file state and the read result. -/
def loadCollection (f : FileState α) : FileState α × Except (Nat × String) (List α) :=
  let f₂ := ensureDataFile f
  (f₂, readJson f₂)

/-- A concrete stand-in for the bcrypt hash (used only to instantiate
theorems at concrete inputs). -/
def hashDemo (p : String) : String := "h" ++ p

/-- A concrete stand-in for bcrypt.compare, matching hashDemo. -/
def verifyDemo (p h : String) : Bool := h == hashDemo p

/-- A concrete registered user, for instantiating theorems. -/
def anaUser : User :=
  { id := 1, username := "Ana_01", passwordHash := hashDemo "secret1",
    avatarUrl := "", createdAt := "t0" }

/-- A concrete registered user with id 5, for instantiating theorems. -/
def bobUser : User :=
  { id := 5, username := "bob_01", passwordHash := hashDemo "hunter22",
    avatarUrl := "", createdAt := "t0" }

/-- C1: the record appended by the login-audit endpoint carries exactly the
fields username, avatarUrl and timestamp, hence never a password or
passwordHash field, for every payload including adversarial ones. -/
theorem saveLogin_never_stores_password (nowIso : String) (body : Obj)
    (logins : List Obj) :
    ∃ e : Obj, saveLogin nowIso body logins = logins ++ [e]
      ∧ e.map Prod.fst = ["username", "avatarUrl", "timestamp"]
      ∧ e.lookup "password" = none
      ∧ e.lookup "passwordHash" = none := by
  refine ⟨_, rfl, rfl, ?_, ?_⟩ <;> simp [List.lookup]

/-- C6: register assigns Date.now() as the id, so a registration happening at
an instant equal to an existing id produces a duplicate id: with bob (id 5)
in the store, registering Alice at time 5 succeeds and reuses id 5. -/
theorem register_duplicate_id :
    ∃ nu : User,
      register hashDemo 5 "t1" [bobUser] "Alice" "secret1" = .ok ([bobUser, nu], nu)
      ∧ nu.id = 5 ∧ bobUser.id = 5 := by
  exact ⟨⟨5, "Alice", hashDemo "secret1", "", "t1"⟩, rfl, rfl, rfl⟩

/-- C7: when the id-lookup call succeeds but its payload carries no id, the
avatar proxy fails with the 404 not-found error and the thumbnail call is
never attempted, whatever that call would have returned. -/
theorem resolveAvatar_no_id_not_found (username : String)
    (thumbCall : FetchOutcome (Option String)) (h : jsTrim username ≠ "") :
    resolveAvatar username (.resp ⟨true, none⟩) thumbCall
      = (.error (404, "Usuario Roblox no encontrado"), false) := by
  simp only [resolveAvatar, if_neg h]
  rfl

/-- C7 witness: the not-found outcome at the concrete username of the spec
example, with a thumbnail call that would have failed at transport level. -/
theorem resolveAvatar_no_id_not_found_witness :
    resolveAvatar "unknownUser123" (.resp ⟨true, none⟩) .netFail
      = (.error (404, "Usuario Roblox no encontrado"), false) :=
  resolveAvatar_no_id_not_found "unknownUser123" .netFail (by decide)

/-- A string passing the username validation has length at least 2. -/
theorem usernameOk_length {s : String} (h : usernameOk s = true) : 2 ≤ s.length := by
  unfold usernameOk at h
  simp only [Bool.and_eq_true, decide_eq_true_eq] at h
  exact h.1.1

/-- C2 counterexample: with Ana_01 registered, registering the case-variant
ana_01 with the empty password fails with the password-length validation
error, not with the 409 conflict error, although the case-insensitive match
is present in the store. -/
theorem register_caseless_conflict_cex :
    register hashDemo 100 "t1" [anaUser] "ana_01" ""
      = .error (400, "La contrasena debe tener al menos 6 caracteres")
    ∧ jsToLower (jsTrim "ana_01") = jsToLower anaUser.username
    ∧ register hashDemo 100 "t1" [anaUser] "ana_01" ""
        ≠ .error (409, "Usuario ya existe") := by
  refine ⟨rfl, rfl, ?_⟩
  intro h
  rw [show register hashDemo 100 "t1" [anaUser] "ana_01" ""
      = Except.error ((400 : Nat), "La contrasena debe tener al menos 6 caracteres")
      from rfl] at h
  simp at h

/-- C2 (amended): once the validation gates pass — the trimmed username
matches the pattern and the password has length at least 6 — registering any
case-insensitive variant of a stored username fails with the 409 conflict
error, for every store state. -/
theorem register_caseless_conflict (hash : String → String) (now : Nat)
    (nowIso : String) (users : List User) (u : User) (v p : String)
    (hu : u ∈ users) (hpat : usernameOk (jsTrim v) = true) (hp : 6 ≤ p.length)
    (hcase : jsToLower (jsTrim v) = jsToLower u.username) :
    register hash now nowIso users v p = .error (409, "Usuario ya existe") := by
  have hlen : 2 ≤ (jsTrim v).length := usernameOk_length hpat
  simp only [register]
  rw [if_neg (by omega), if_neg (by omega), if_neg (by simp [hpat]),
    if_pos (List.any_eq_true.mpr ⟨u, hu, by simp [beq_iff_eq, hcase]⟩)]

/-- C2 witness: the amended conflict at a concrete store and input. -/
theorem register_caseless_conflict_witness :
    register hashDemo 100 "t1" [anaUser] "ana_01" "secret1"
      = .error (409, "Usuario ya existe") :=
  register_caseless_conflict hashDemo 100 "t1" [anaUser] anaUser "ana_01" "secret1"
    (by simp) (by decide) (by decide) (by decide)

/-- C3 counterexample: with Ana_01 registered, a login attempt with the
(wrong) empty password is rejected with the 400 incomplete-credentials error,
not with the 401 error the claim names for every wrong password. -/
theorem login_same_error_cex :
    verifyDemo "" anaUser.passwordHash = false
    ∧ login verifyDemo [anaUser] "Ana_01" ""
        = .error (400, "Credenciales incompletas")
    ∧ login verifyDemo [anaUser] "Ana_01" ""
        ≠ .error (401, "Usuario/contrasena invalidos") := by
  refine ⟨rfl, rfl, ?_⟩
  intro h
  rw [show login verifyDemo [anaUser] "Ana_01" ""
      = Except.error ((400 : Nat), "Credenciales incompletas") from rfl] at h
  simp at h

/-- C3 (amended): for a nonempty trimmed username and a nonempty password,
every failing login — whether no case-insensitive username match exists or
the stored hash rejects the password — returns the one 401 response, so kind
and message are identical in both cases and the response does not reveal
whether the username exists. -/
theorem login_uniform_auth_error (verify : String → String → Bool)
    (users : List User) (v p : String)
    (hv : jsTrim v ≠ "") (hp : p ≠ "")
    (hwrong : ∀ u,
      users.find? (fun x => jsToLower x.username == jsToLower (jsTrim v)) = some u →
      verify p u.passwordHash = false) :
    login verify users v p = .error (401, "Usuario/contrasena invalidos") := by
  cases hfind : users.find? (fun x => jsToLower x.username == jsToLower (jsTrim v)) with
  | none => simp [login, hfind, hv, hp]
  | some u => simp [login, hfind, hv, hp, hwrong u hfind]

/-- C3 witness: the 401 response at a concrete store, existing username and
wrong password. -/
theorem login_uniform_auth_error_witness :
    login verifyDemo [anaUser] "Ana_01" "wrongpw"
      = .error (401, "Usuario/contrasena invalidos") :=
  login_uniform_auth_error verifyDemo [anaUser] "Ana_01" "wrongpw"
    (by decide) (by decide)
    (fun u hu => by
      have h1 : ([anaUser].find?
          (fun x => jsToLower x.username == jsToLower (jsTrim "Ana_01")))
          = some anaUser := rfl
      rw [h1] at hu
      cases hu
      decide)

/-- A case-insensitively unique store: two stored records whose usernames
agree case-insensitively are the same record. This is the invariant the
register conflict check maintains. -/
def caselessUnique (users : List User) : Prop :=
  ∀ a ∈ users, ∀ b ∈ users, jsToLower a.username = jsToLower b.username → a = b

/-- In a case-insensitively unique store, find? with a case-insensitive key
matching a member returns exactly that member. -/
theorem find?_of_caselessUnique (users : List User) (u : User) (key : String)
    (huniq : caselessUnique users) (hu : u ∈ users)
    (hk : jsToLower u.username = key) :
    users.find? (fun x => jsToLower x.username == key) = some u := by
  induction users with
  | nil => cases hu
  | cons a rest ih =>
    by_cases ha : jsToLower a.username = key
    · rw [List.find?_cons_of_pos _ (by simp [beq_iff_eq, ha])]
      have : a = u := huniq a (by simp) u hu (by rw [ha, hk])
      rw [this]
    · rcases List.mem_cons.mp hu with h | h
      · subst h
        exact absurd hk ha
      · rw [List.find?_cons_of_neg _ (by simp [beq_iff_eq, ha])]
        exact ih
          (fun x hx y hy => huniq x (List.mem_cons_of_mem _ hx) y (List.mem_cons_of_mem _ hy))
          h

/-- C4: in a case-insensitively unique store, logging in with any case-variant
of a stored username and a password the stored hash verifies succeeds and
returns that stored record — in particular the identity carries the username
with exactly the casing stored at registration time, not the one supplied. -/
theorem login_returns_stored_casing (verify : String → String → Bool)
    (users : List User) (u : User) (v p : String)
    (huniq : caselessUnique users) (hu : u ∈ users)
    (hcase : jsToLower (jsTrim v) = jsToLower u.username)
    (hv : jsTrim v ≠ "") (hp : p ≠ "")
    (hok : verify p u.passwordHash = true) :
    login verify users v p = .ok u := by
  have hfind := find?_of_caselessUnique users u (jsToLower (jsTrim v)) huniq hu hcase.symm
  simp [login, hfind, hv, hp, hok]

/-- C4 witness: logging in as ANA-cased variant of the stored Ana_01 with the
correct password returns the record with the stored casing. -/
theorem login_returns_stored_casing_witness :
    login verifyDemo [anaUser] "ANA_01" "secret1" = .ok anaUser :=
  login_returns_stored_casing verifyDemo [anaUser] anaUser "ANA_01" "secret1"
    (by intro a ha b hb _; simp at ha hb; rw [ha, hb])
    (by simp) (by decide) (by decide) (by decide) (by decide)

/-- C5: loading the users collection when its backing file is missing creates
the file holding the empty array and returns the empty sequence rather than
failing, and a subsequent register against the empty store succeeds for any
input passing validation. -/
theorem load_missing_file_then_register (hash : String → String) (now : Nat)
    (nowIso : String) (v p : String)
    (hpat : usernameOk (jsTrim v) = true) (hp : 6 ≤ p.length) :
    loadCollection (none : FileState User) = (some [], Except.ok [])
    ∧ ∃ nu : User, register hash now nowIso [] v p = .ok ([nu], nu) := by
  have hlen : 2 ≤ (jsTrim v).length := usernameOk_length hpat
  refine ⟨rfl, ⟨⟨now, jsTrim v, hash p, "", nowIso⟩, ?_⟩⟩
  simp only [register]
  rw [if_neg (by omega), if_neg (by omega), if_neg (by simp [hpat]),
    if_neg (by simp)]
  rfl

/-- C5 witness: the missing-file load and a concrete subsequent registration. -/
theorem load_missing_file_then_register_witness :
    loadCollection (none : FileState User) = (some [], Except.ok [])
    ∧ ∃ nu : User, register hashDemo 100 "t1" [] "Ana_01" "secret1" = .ok ([nu], nu) :=
  load_missing_file_then_register hashDemo 100 "t1" "Ana_01" "secret1"
    (by decide) (by decide)

/-- findIndex finds an index when some member satisfies the predicate. -/
theorem findIndex_isSome_of_mem {p : α → Bool} {l : List α} {x : α}
    (hx : x ∈ l) (hpx : p x = true) : (findIndex p l).isSome = true := by
  induction l with
  | nil => cases hx
  | cons a as ih =>
    by_cases hpa : p a = true
    · simp [findIndex, hpa]
    · rcases List.mem_cons.mp hx with h | h
      · subst h
        exact absurd hpx hpa
      · simp only [findIndex, if_neg hpa, Option.isSome_map']
        exact ih h

/-- The element at a findIndex result satisfies the predicate. -/
theorem findIndex_spec {p : α → Bool} {l : List α} {i : Nat}
    (h : findIndex p l = some i) : ∃ x, l[i]? = some x ∧ p x = true := by
  induction l generalizing i with
  | nil => simp [findIndex] at h
  | cons a as ih =>
    by_cases hpa : p a = true
    · simp only [findIndex, if_pos hpa, Option.some.injEq] at h
      subst h
      exact ⟨a, by simp, hpa⟩
    · simp only [findIndex, if_neg hpa, Option.map_eq_some'] at h
      obtain ⟨j, hj, rfl⟩ := h
      obtain ⟨x, hx, hpx⟩ := ih hj
      exact ⟨x, by simpa using hx, hpx⟩

/-- C8: for an authenticated session whose user id is present in the store,
updateAvatar succeeds and changes only the avatarUrl field of the first
record matching the id: the array keeps its length, every other position is
unchanged, and the matched record keeps its id, username, passwordHash and
createdAt in the persisted array. -/
theorem updateAvatar_frame (users : List User) (uid : Nat) (a : Option String)
    (hmem : ∃ w ∈ users, w.id = uid) :
    ∃ idx u users₂,
      findIndex (fun x => x.id == uid) users = some idx
      ∧ users[idx]? = some u
      ∧ updateAvatar (some uid) users a = .ok users₂
      ∧ users₂.length = users.length
      ∧ users₂[idx]? = some { u with avatarUrl := a.getD "" }
      ∧ (∀ j, j ≠ idx → users₂[j]? = users[j]?)
      ∧ ({ u with avatarUrl := a.getD "" }).id = u.id
      ∧ ({ u with avatarUrl := a.getD "" }).username = u.username
      ∧ ({ u with avatarUrl := a.getD "" }).passwordHash = u.passwordHash
      ∧ ({ u with avatarUrl := a.getD "" }).createdAt = u.createdAt := by
  obtain ⟨w, hw, hwid⟩ := hmem
  have hsome : (findIndex (fun x => x.id == uid) users).isSome = true :=
    findIndex_isSome_of_mem hw (by simp [hwid])
  obtain ⟨idx, hidx⟩ := Option.isSome_iff_exists.mp hsome
  obtain ⟨u, hget, _⟩ := findIndex_spec hidx
  have hlt : idx < users.length := by
    obtain ⟨h, _⟩ := List.getElem?_eq_some.mp hget
    exact h
  refine ⟨idx, u, users.set idx { u with avatarUrl := a.getD "" },
    hidx, hget, ?_, by simp, ?_, ?_, rfl, rfl, rfl, rfl⟩
  · simp [updateAvatar, hidx, hget]
  · simp [List.getElem?_set_self hlt]
  · intro j hj
    exact List.getElem?_set_ne (Ne.symm hj)

/-- C8 witness: updating the avatar of the sole stored user. -/
theorem updateAvatar_frame_witness :
    ∃ idx u users₂,
      findIndex (fun x => x.id == 5) [bobUser] = some idx
      ∧ [bobUser][idx]? = some u
      ∧ updateAvatar (some 5) [bobUser] (some "https://img.example/x.png") = .ok users₂
      ∧ users₂.length = [bobUser].length
      ∧ users₂[idx]? = some { u with avatarUrl := (some "https://img.example/x.png").getD "" }
      ∧ (∀ j, j ≠ idx → users₂[j]? = [bobUser][j]?)
      ∧ ({ u with avatarUrl := (some "https://img.example/x.png").getD "" }).id = u.id
      ∧ ({ u with avatarUrl := (some "https://img.example/x.png").getD "" }).username = u.username
      ∧ ({ u with avatarUrl := (some "https://img.example/x.png").getD "" }).passwordHash = u.passwordHash
      ∧ ({ u with avatarUrl := (some "https://img.example/x.png").getD "" }).createdAt = u.createdAt :=
  updateAvatar_frame [bobUser] 5 (some "https://img.example/x.png")
    ⟨bobUser, by simp, rfl⟩

/-- saveResponseMany appends the stamped bodies, in submission order. -/
theorem saveResponseMany_eq (items : List (String × Obj)) (arr : List Obj) :
    saveResponseMany items arr
      = arr ++ items.map (fun it => setField "timestamp" it.1 it.2) := by
  induction items generalizing arr with
  | nil => simp [saveResponseMany]
  | cons it rest ih =>
    rw [show saveResponseMany (it :: rest) arr
        = saveResponseMany rest (saveResponse it.1 it.2 arr) from rfl, ih]
    simp [saveResponse]

/-- C9: submitting N survey responses starting from any collection state
leaves the prior records in place and appends exactly the N stamped records
in submission order, so reading the collection back yields exactly N more
records than before. -/
theorem saveResponse_appends_in_order (items : List (String × Obj)) (arr : List Obj) :
    saveResponseMany items arr
      = arr ++ items.map (fun it => setField "timestamp" it.1 it.2)
    ∧ (saveResponseMany items arr).length = arr.length + items.length := by
  refine ⟨saveResponseMany_eq items arr, ?_⟩
  rw [saveResponseMany_eq items arr]
  simp

/-- Setting a field makes its lookup return the written value. -/
theorem lookup_setField (k v : String) (o : Obj) :
    (setField k v o).lookup k = some v := by
  induction o with
  | nil => simp [setField, List.lookup]
  | cons pr rest ih =>
    by_cases hk : pr.1 = k
    · simp [setField, hk, List.lookup, List.any_cons]
    · have hne : (k == pr.1) = false := by simp [Ne.symm hk]
      by_cases hrest : rest.any (fun p => p.1 == k) = true
      · have hmap : setField k v (pr :: rest) = pr :: rest.map
            (fun p => if p.1 == k then (k, v) else p) := by
          simp [setField, hk, hrest, List.any_cons]
        have hrec : setField k v rest = rest.map
            (fun p => if p.1 == k then (k, v) else p) := by
          simp [setField, hrest]
        rw [hmap]
        cases pr with
        | mk k₁ v₁ =>
          simp only [List.lookup, hne, ← hrec, ih]
      · have happ : setField k v (pr :: rest) = pr :: (rest ++ [(k, v)]) := by
          simp [setField, hk, hrest, List.any_cons]
        have hrec : setField k v rest = rest ++ [(k, v)] := by
          simp [setField, hrest]
        rw [happ]
        cases pr with
        | mk k₁ v₁ =>
          simp only [List.lookup, hne, ← hrec, ih]

/-- Every binding of a just-set key carries the written value. -/
theorem mem_setField {k v w : String} {o : Obj} (h : (k, w) ∈ setField k v o) :
    w = v := by
  unfold setField at h
  split at h
  · rename_i hany
    obtain ⟨pr, hpr, hf⟩ := List.mem_map.mp h
    by_cases hk : pr.1 = k
    · rw [if_pos (by simp [hk])] at hf
      exact ((Prod.ext_iff.mp hf).2).symm
    · rw [if_neg (by simp [hk])] at hf
      exact absurd (congrArg Prod.fst hf) hk
  · rename_i hany
    rcases List.mem_append.mp h with h₁ | h₁
    · exact absurd (List.any_eq_true.mpr ⟨(k, w), h₁, by simp⟩) hany
    · have := List.mem_singleton.mp h₁
      exact (Prod.mk.injEq _ _ _ _ ▸ this).2

/-- C10: the stored survey record is the body with its timestamp field set to
the server time of receipt: its timestamp lookup yields the server time and
every timestamp binding it holds carries the server time, so a
client-supplied timestamp value is overwritten and never persisted. -/
theorem saveResponse_server_timestamp (nowIso : String) (body : Obj)
    (arr : List Obj) :
    ∃ stored : Obj, saveResponse nowIso body arr = arr ++ [stored]
      ∧ stored = setField "timestamp" nowIso body
      ∧ stored.lookup "timestamp" = some nowIso
      ∧ ∀ w, ("timestamp", w) ∈ stored → w = nowIso :=
  ⟨setField "timestamp" nowIso body, rfl, rfl, lookup_setField _ _ _,
    fun _ h => mem_setField h⟩

end RobuxFree
